import Mathlib

/-!
Shallow embedding of the Rainier Game Boy (DMG) emulator core
(src/bit_utils.rs, src/cpu/registers.rs, src/cpu/interrupts.rs,
src/cpu/clock.rs, src/cpu/instruction_set.rs, src/cpu/mod.rs,
src/mmu/mod.rs, src/mmu/io.rs).

Conventions of the embedding:
* Machine integers (u8 / u16 / usize) are embedded as Nat.  Unchecked Rust
  arithmetic on u8 / u16 is embedded with the release-profile (wrapping)
  semantics, written as explicit percent 2^8 / percent 2^16 where overflow
  can occur; this is the mode in which the emulator meets its stated
  functional contract (passing the Blargg cpu_instrs ROMs).
* A Rust Result is embedded as Except MmuError; calling .unwrap() on a
  Result, and the todo macro, abort the process, which is embedded as
  Option with none standing for the abort.
* RAM banks are embedded as functions from the relative offset to the
  stored byte; an in-place store is a pointwise functional update.
-/

namespace Rainier

/-! ## src/bit_utils.rs -/

/-- Source fn carry_check_add_8bit: (((a & 0xF) + (b & 0xF)) & 0x10) == 0x10. -/
def carry_check_add_8bit (a b : Nat) : Bool :=
  (((a &&& 0xF) + (b &&& 0xF)) &&& 0x10) == 0x10

/-- Source fn concatenate_bytes: lower_byte as u16 | ((higher_byte as u16) << 8). -/
def concatenate_bytes (lower_byte higher_byte : Nat) : Nat :=
  lower_byte ||| (higher_byte <<< 8)

/-- Source fn split_2bytes: returns (low_byte, high_byte) where
high_byte = (bytes >> 8) as u8 and low_byte = (bytes & 0xFF) as u8. -/
def split_2bytes (bytes : Nat) : Nat × Nat :=
  ((bytes &&& 0xFF), ((bytes >>> 8) &&& 0xFF))

/-! ## src/cpu/registers.rs -/

/-- Source enum Register (registers.rs lines 1-4). -/
inductive Register
  | A | B | C | D | E | H | L | AF | BC | DE | HL | SP | PC
deriving DecidableEq

/-- Source struct Registers (registers.rs lines 6-18).  The extra ime
field: the interrupts module (interrupts.rs lines 44-46) calls
registers.ime() and registers.set_ime(..), accessors that registers.rs
does not declare.  Modelled from the spec: that missing piece is the
interrupt master enable, a single boolean distinct from IE and IF. -/
structure Registers where
  a : Nat := 0
  b : Nat := 0
  c : Nat := 0
  d : Nat := 0
  e : Nat := 0
  f : Nat := 0
  h : Nat := 0
  l : Nat := 0
  sp : Nat := 0
  pc : Nat := 0
  ime : Bool := false
deriving DecidableEq

/-- Source enum Flag: Zero = 1 << 7, Subtraction = 1 << 6,
HalfCarry = 1 << 5, Carry = 1 << 4. -/
inductive Flag
  | Zero | Subtraction | HalfCarry | Carry
deriving DecidableEq

/-- Discriminant of the Flag enum (flag as u8 in the source). -/
def Flag.val : Flag → Nat
  | .Zero => 1 <<< 7
  | .Subtraction => 1 <<< 6
  | .HalfCarry => 1 <<< 5
  | .Carry => 1 <<< 4

namespace Registers

/-- Source set_a. -/
def set_a (r : Registers) (val : Nat) : Registers := { r with a := val }

/-- Source set_f: stores val & 0xF0 (lower 4 bits always 0). -/
def set_f (r : Registers) (val : Nat) : Registers := { r with f := val &&& 0xF0 }

/-- Source af getter: ((a as u16) << 8) | f as u16. -/
def af (r : Registers) : Nat := (r.a <<< 8) ||| r.f

/-- Source set_af: a = (val >> 8) as u8; f = (val & 0xF0) as u8. -/
def set_af (r : Registers) (val : Nat) : Registers :=
  { r with a := (val >>> 8) &&& 0xFF, f := val &&& 0xF0 }

/-- Source bc getter. -/
def bc (r : Registers) : Nat := (r.b <<< 8) ||| r.c

/-- Source set_bc. -/
def set_bc (r : Registers) (val : Nat) : Registers :=
  { r with b := (val >>> 8) &&& 0xFF, c := val &&& 0xFF }

/-- Source de getter. -/
def de (r : Registers) : Nat := (r.d <<< 8) ||| r.e

/-- Source set_de. -/
def set_de (r : Registers) (val : Nat) : Registers :=
  { r with d := (val >>> 8) &&& 0xFF, e := val &&& 0xFF }

/-- Source hl getter: ((h as u16) << 8) | l as u16. -/
def hl (r : Registers) : Nat := (r.h <<< 8) ||| r.l

/-- Source set_hl. -/
def set_hl (r : Registers) (val : Nat) : Registers :=
  { r with h := (val >>> 8) &&& 0xFF, l := val &&& 0xFF }

/-- Source set_sp. -/
def set_sp (r : Registers) (val : Nat) : Registers := { r with sp := val }

/-- Source increment_sp: self.sp += 1 on u16, embedded with wrapping
(release) overflow semantics. -/
def increment_sp (r : Registers) : Registers :=
  { r with sp := (r.sp + 1) % 0x10000 }

/-- Source decrement_sp: self.sp -= 1 on u16, embedded with wrapping
(release) overflow semantics. -/
def decrement_sp (r : Registers) : Registers :=
  { r with sp := (r.sp + 0xFFFF) % 0x10000 }

/-- Source set_pc. -/
def set_pc (r : Registers) (val : Nat) : Registers := { r with pc := val }

/-- Source increment_pc: self.pc += 1 on u16, embedded with wrapping
(release) overflow semantics. -/
def increment_pc (r : Registers) : Registers :=
  { r with pc := (r.pc + 1) % 0x10000 }

/-- Source get_flag: (self.f & flag as u8) != 0. -/
def get_flag (r : Registers) (flag : Flag) : Bool := (r.f &&& flag.val) != 0

/-- Source set_flag: if val then f |= flag else f &= !flag; the u8
complement of the flag discriminant is 0xFF ^ flag. -/
def set_flag (r : Registers) (flag : Flag) (val : Bool) : Registers :=
  if val then { r with f := r.f ||| flag.val }
  else { r with f := r.f &&& (0xFF ^^^ flag.val) }

/-- Source clear_flag: f &= !(flag as u8). -/
def clear_flag (r : Registers) (flag : Flag) : Registers :=
  { r with f := r.f &&& (0xFF ^^^ flag.val) }

/-- Source flip_flag: f ^= flag as u8. -/
def flip_flag (r : Registers) (flag : Flag) : Registers :=
  { r with f := r.f ^^^ flag.val }

/-- Source clear_all_flags: f = 0. -/
def clear_all_flags (r : Registers) : Registers := { r with f := 0 }

/-- Source zero_flag. -/
def zero_flag (r : Registers) : Bool := r.get_flag .Zero

/-- Source set_zero_flag. -/
def set_zero_flag (r : Registers) (val : Bool) : Registers := r.set_flag .Zero val

/-- Source subtraction_flag. -/
def subtraction_flag (r : Registers) : Bool := r.get_flag .Subtraction

/-- Source set_subtraction_flag. -/
def set_subtraction_flag (r : Registers) (val : Bool) : Registers :=
  r.set_flag .Subtraction val

/-- Source half_carry_flag. -/
def half_carry_flag (r : Registers) : Bool := r.get_flag .HalfCarry

/-- Source set_half_carry_flag. -/
def set_half_carry_flag (r : Registers) (val : Bool) : Registers :=
  r.set_flag .HalfCarry val

/-- Source carry_flag. -/
def carry_flag (r : Registers) : Bool := r.get_flag .Carry

/-- Source set_carry_flag. -/
def set_carry_flag (r : Registers) (val : Bool) : Registers :=
  r.set_flag .Carry val

end Registers

/-! ## src/mmu/mod.rs -/

/-- The two anyhow error messages produced by mmu/mod.rs: Illegal address
(from_address, line 62) and Attempted to write into illegal memory region
(write_byte, lines 207 and 228). -/
inductive MmuError
  | illegalAddress
  | writeIntoIllegalMemoryRegion
deriving DecidableEq

/-- Source enum MemoryRegion (mmu/mod.rs lines 34-46).  The IO variant is
renamed Io because IO is a reserved core name in Lean. -/
inductive MemoryRegion
  | RomBankZero
  | RomBankSwap
  | VideoRam
  | ExternalRam
  | WorkRam
  | EchoRam
  | SpriteAttributionTable
  | Unusable
  | Io
  | HighRam
  | InterruptEnableRegister
deriving DecidableEq

/-- Source MemoryRegion::from_address (mmu/mod.rs lines 49-64): a match on
the inclusive address ranges, Err(Illegal address) past 0xFFFF. -/
def from_address (address : Nat) : Except MmuError MemoryRegion :=
  if address ≤ 0x3FFF then .ok .RomBankZero
  else if address ≤ 0x7FFF then .ok .RomBankSwap
  else if address ≤ 0x9FFF then .ok .VideoRam
  else if address ≤ 0xBFFF then .ok .ExternalRam
  else if address ≤ 0xDFFF then .ok .WorkRam
  else if address ≤ 0xFDFF then .ok .EchoRam
  else if address ≤ 0xFE9F then .ok .SpriteAttributionTable
  else if address ≤ 0xFEFF then .ok .Unusable
  else if address ≤ 0xFF7F then .ok .Io
  else if address ≤ 0xFFFE then .ok .HighRam
  else if address = 0xFFFF then .ok .InterruptEnableRegister
  else .error .illegalAddress

/-- Source struct Mmu (mmu/mod.rs lines 83-100): each RAM bank as a map
from relative offset to byte.  The cartridge_data vector plays no role in
the claims and is omitted. -/
structure Mmu where
  rom_bank_zero : Nat → Nat
  rom_bank_swap : Nat → Nat
  video_ram : Nat → Nat
  external_ram : Nat → Nat
  work_ram : Nat → Nat
  echo_ram : Nat → Nat
  sprite_attribution_table : Nat → Nat
  unusable : Nat → Nat
  io : Nat → Nat
  high_ram : Nat → Nat
  interrupt_enable_register : Nat

/-- Pointwise store into a RAM bank (an in-place array write in the source). -/
def upd (f : Nat → Nat) (k v : Nat) : Nat → Nat :=
  fun i => if i = k then v else f i

/-- Source Mmu::new (mmu/mod.rs lines 103-123): all banks zeroed except
external_ram (filled with 0xFF) and work_ram, which the source fills with
rand::random(); the random bytes are taken as the parameter work_ram_init. -/
def mmu_new (work_ram_init : Nat → Nat) : Mmu :=
  { rom_bank_zero := fun _ => 0
    rom_bank_swap := fun _ => 0
    video_ram := fun _ => 0
    external_ram := fun _ => 0xFF
    work_ram := work_ram_init
    echo_ram := fun _ => 0
    sprite_attribution_table := fun _ => 0
    unusable := fun _ => 0
    io := fun _ => 0
    high_ram := fun _ => 0
    interrupt_enable_register := 0 }

/-- Source Mmu::read_byte (mmu/mod.rs lines 152-202): the LY stub at
0xFF44 returns 0x90; otherwise each region is read at address minus the
region base.  The echo region reads the separate echo_ram bank. -/
def read_byte (m : Mmu) (address : Nat) : Except MmuError Nat :=
  if address = 0xFF44 then .ok 0x90
  else
    (from_address address).map fun rg =>
      match rg with
      | .RomBankZero => m.rom_bank_zero (address - 0x0000)
      | .RomBankSwap => m.rom_bank_swap (address - 0x4000)
      | .VideoRam => m.video_ram (address - 0x8000)
      | .ExternalRam => m.external_ram (address - 0xA000)
      | .WorkRam => m.work_ram (address - 0xC000)
      | .EchoRam => m.echo_ram (address - 0xE000)
      | .SpriteAttributionTable => m.sprite_attribution_table (address - 0xFE00)
      | .Unusable => m.unusable (address - 0xFEA0)
      | .Io => m.io (address - 0xFF00)
      | .HighRam => m.high_ram (address - 0xFF80)
      | .InterruptEnableRegister => m.interrupt_enable_register

/-- Source Mmu::write_byte (mmu/mod.rs lines 204-260): ROM banks and the
Echo region answer Err(Attempted to write into illegal memory region);
every other region stores the byte at address minus the region base. -/
def write_byte (m : Mmu) (address value : Nat) : Except MmuError Mmu :=
  (from_address address).bind fun rg =>
    match rg with
    | .RomBankZero => .error .writeIntoIllegalMemoryRegion
    | .RomBankSwap => .error .writeIntoIllegalMemoryRegion
    | .VideoRam => .ok { m with video_ram := upd m.video_ram (address - 0x8000) value }
    | .ExternalRam => .ok { m with external_ram := upd m.external_ram (address - 0xA000) value }
    | .WorkRam => .ok { m with work_ram := upd m.work_ram (address - 0xC000) value }
    | .EchoRam => .error .writeIntoIllegalMemoryRegion
    | .SpriteAttributionTable =>
        .ok { m with sprite_attribution_table := upd m.sprite_attribution_table (address - 0xFE00) value }
    | .Unusable => .ok { m with unusable := upd m.unusable (address - 0xFEA0) value }
    | .Io => .ok { m with io := upd m.io (address - 0xFF00) value }
    | .HighRam => .ok { m with high_ram := upd m.high_ram (address - 0xFF80) value }
    | .InterruptEnableRegister => .ok { m with interrupt_enable_register := value }

/-- Source Mmu::get_byte_ref (mmu/mod.rs lines 262-308): unlike write_byte
it hands out a mutable cell for EVERY region, ROM banks and Echo included.
The returned mutable u8 reference is embedded as the pair of the region
and the relative offset; loc_read and loc_write below interpret it. -/
def get_byte_ref (address : Nat) : Except MmuError (MemoryRegion × Nat) :=
  (from_address address).map fun rg =>
    match rg with
    | .RomBankZero => (.RomBankZero, address - 0x0000)
    | .RomBankSwap => (.RomBankSwap, address - 0x4000)
    | .VideoRam => (.VideoRam, address - 0x8000)
    | .ExternalRam => (.ExternalRam, address - 0xA000)
    | .WorkRam => (.WorkRam, address - 0xC000)
    | .EchoRam => (.EchoRam, address - 0xE000)
    | .SpriteAttributionTable => (.SpriteAttributionTable, address - 0xFE00)
    | .Unusable => (.Unusable, address - 0xFEA0)
    | .Io => (.Io, address - 0xFF00)
    | .HighRam => (.HighRam, address - 0xFF80)
    | .InterruptEnableRegister => (.InterruptEnableRegister, 0)

/-- Reading through a reference produced by get_byte_ref. -/
def loc_read (m : Mmu) : MemoryRegion × Nat → Nat
  | (.RomBankZero, i) => m.rom_bank_zero i
  | (.RomBankSwap, i) => m.rom_bank_swap i
  | (.VideoRam, i) => m.video_ram i
  | (.ExternalRam, i) => m.external_ram i
  | (.WorkRam, i) => m.work_ram i
  | (.EchoRam, i) => m.echo_ram i
  | (.SpriteAttributionTable, i) => m.sprite_attribution_table i
  | (.Unusable, i) => m.unusable i
  | (.Io, i) => m.io i
  | (.HighRam, i) => m.high_ram i
  | (.InterruptEnableRegister, _) => m.interrupt_enable_register

/-- Storing through a reference produced by get_byte_ref. -/
def loc_write (m : Mmu) : MemoryRegion × Nat → Nat → Mmu
  | (.RomBankZero, i), v => { m with rom_bank_zero := upd m.rom_bank_zero i v }
  | (.RomBankSwap, i), v => { m with rom_bank_swap := upd m.rom_bank_swap i v }
  | (.VideoRam, i), v => { m with video_ram := upd m.video_ram i v }
  | (.ExternalRam, i), v => { m with external_ram := upd m.external_ram i v }
  | (.WorkRam, i), v => { m with work_ram := upd m.work_ram i v }
  | (.EchoRam, i), v => { m with echo_ram := upd m.echo_ram i v }
  | (.SpriteAttributionTable, i), v =>
      { m with sprite_attribution_table := upd m.sprite_attribution_table i v }
  | (.Unusable, i), v => { m with unusable := upd m.unusable i v }
  | (.Io, i), v => { m with io := upd m.io i v }
  | (.HighRam, i), v => { m with high_ram := upd m.high_ram i v }
  | (.InterruptEnableRegister, _), v => { m with interrupt_enable_register := v }

/-! ## src/mmu/io.rs — typed accessors used by the claims.  Each source
accessor is read_byte / write_byte at a fixed I/O address followed by
.unwrap(); for these addresses the access always succeeds (lemmas below),
so the accessors are embedded directly on the io bank. -/

/-- Source Mmu::tima: read_byte(0xFF05).unwrap(). -/
def Mmu.tima (m : Mmu) : Nat := m.io 0x05

/-- Source Mmu::set_tima: write_byte(0xFF05, val).unwrap(). -/
def Mmu.set_tima (m : Mmu) (val : Nat) : Mmu := { m with io := upd m.io 0x05 val }

/-- Source Mmu::tma: read_byte(0xFF06).unwrap(). -/
def Mmu.tma (m : Mmu) : Nat := m.io 0x06

/-- Source Mmu::set_tma: write_byte(0xFF06, val).unwrap(). -/
def Mmu.set_tma (m : Mmu) (val : Nat) : Mmu := { m with io := upd m.io 0x06 val }

/-- Source Mmu::tac: read_byte(0xFF07).unwrap(). -/
def Mmu.tac (m : Mmu) : Nat := m.io 0x07

/-- Source Mmu::set_tac: write_byte(0xFF07, val).unwrap(). -/
def Mmu.set_tac (m : Mmu) (val : Nat) : Mmu := { m with io := upd m.io 0x07 val }

/-- Source Mmu::iflag: read_byte(0xFF0F).unwrap(). -/
def Mmu.iflag (m : Mmu) : Nat := m.io 0x0F

/-- Source Mmu::set_iflag: write_byte(0xFF0F, val).unwrap(). -/
def Mmu.set_iflag (m : Mmu) (val : Nat) : Mmu := { m with io := upd m.io 0x0F val }

/-- Source Mmu::ie: read_byte(0xFFFF).unwrap(). -/
def Mmu.ie (m : Mmu) : Nat := m.interrupt_enable_register

/-- Source Mmu::set_ie: write_byte(0xFFFF, val).unwrap(). -/
def Mmu.set_ie (m : Mmu) (val : Nat) : Mmu := { m with interrupt_enable_register := val }

/-- The direct embedding of the tima accessor agrees with
read_byte(0xFF05), justifying the unwrap. -/
theorem read_byte_0xFF05 (m : Mmu) : read_byte m 0xFF05 = .ok (m.io 0x05) := rfl

/-- The direct embedding of the set_iflag accessor agrees with
write_byte(0xFF0F, val), justifying the unwrap. -/
theorem write_byte_0xFF0F (m : Mmu) (v : Nat) :
    write_byte m 0xFF0F v = .ok { m with io := upd m.io 0x0F v } := rfl

/-! ## src/cpu/clock.rs -/

/-- Source struct Clock, minus the shared Mmu handle which the embedding
passes explicitly. -/
structure Clock where
  cycles : Nat

/-- Source Clock::update_clock_cycles (clock.rs lines 19-61).  Only the
clock_select = 0 arm has a body, with a 256-cycle threshold; the arms for
select values 1, 2 and 3 are empty.  On a TIMA overflow the source ORs
the interrupt flag with Interrupt::Timer as u8, the enum discriminant 2.
The println debug output is dropped. -/
def update_clock_cycles (clock : Clock) (m : Mmu) (count : Nat) : Clock × Mmu :=
  let cycles := clock.cycles + count
  let tac := m.tac
  let clock_enable := tac &&& (1 <<< 2) != 0
  if clock_enable then
    let clock_select := tac &&& 0b11
    match clock_select with
    | 0 =>
      if cycles ≥ 256 then
        let cycles := cycles - 256
        let tima := m.tima
        if tima = 0xFF then
          let tma := m.tma
          let m := m.set_tima tma
          let iflag := m.iflag
          let m := m.set_iflag (iflag ||| 2)
          (⟨cycles⟩, m)
        else
          (⟨cycles⟩, m.set_tima (tima + 1))
      else (⟨cycles⟩, m)
    | _ => (⟨cycles⟩, m)
  else (⟨cycles⟩, m)

/-! ## src/cpu/interrupts.rs -/

/-- Vector written to PC per interrupt index (interrupts.rs lines 60-66);
Interrupt::VALUES carries only the indices 0 through 4. -/
def interrupt_vector : Nat → Nat
  | 0 => 0x40
  | 1 => 0x48
  | 2 => 0x50
  | 3 => 0x58
  | 4 => 0x60
  | _ => 0

/-- The for-loop body of Interrupts::handle_interrupts (interrupts.rs
lines 42-70) over the remaining interrupt indices.  The two
write_byte(..).unwrap() calls of the PC push are embedded as Option with
none for the aborting unwrap. -/
def handle_interrupts_loop (r : Registers) (m : Mmu) :
    List Nat → Option (Bool × Registers × Mmu)
  | [] => some (false, r, m)
  | i :: rest =>
    if m.ie &&& (1 <<< i) != 0 && m.iflag &&& (1 <<< i) != 0 then
      if r.ime then
        let r := { r with ime := false }
        let IF := m.iflag &&& (0xFF ^^^ (1 <<< i))
        let m := m.set_iflag IF
        let lohi := split_2bytes r.pc
        let r := r.decrement_sp
        match write_byte m r.sp lohi.2 with
        | .error _ => none
        | .ok m =>
          let r := r.decrement_sp
          match write_byte m r.sp lohi.1 with
          | .error _ => none
          | .ok m => some (true, r.set_pc (interrupt_vector i), m)
      else some (true, r, m)
    else handle_interrupts_loop r m rest

/-- Source Interrupts::handle_interrupts (interrupts.rs lines 38-73):
returns early when IE or IF is zero, else scans Interrupt::VALUES; on the
first pending interrupt with IME set it clears IME, clears the IF bit,
pushes PC (high byte at SP-1, low byte at SP-2) and jumps to the vector. -/
def handle_interrupts (r : Registers) (m : Mmu) : Option (Bool × Registers × Mmu) :=
  if m.ie = 0 ∨ m.iflag = 0 then some (false, r, m)
  else handle_interrupts_loop r m [0, 1, 2, 3, 4]

/-! ## src/cpu/instruction_set.rs — the helper operations the claims
exercise. -/

namespace InstructionSet

/-- Source InstructionSet::adc (instruction_set.rs lines 737-746): the u8
sum wraps; the half-carry check carry_check_add_8bit(left, right) and the
carry check (left + right) as u16 > 0xFF are both computed WITHOUT the
incoming carry. -/
def adc (r : Registers) (left_operator right_operator : Nat) : Registers :=
  let sum := (left_operator + right_operator + (if r.carry_flag then 1 else 0)) % 256
  let r := r.set_a sum
  let r := r.set_zero_flag (sum == 0)
  let r := r.set_subtraction_flag false
  let r := r.set_half_carry_flag (carry_check_add_8bit left_operator right_operator)
  r.set_carry_flag (left_operator + right_operator > 0xFF)

/-- Source InstructionSet::ld_8bit_mem (instruction_set.rs lines 829-831):
write_byte(address, value).unwrap() — an Err from the MMU aborts, embedded
as none. -/
def ld_8bit_mem (m : Mmu) (address value : Nat) : Option Mmu :=
  (write_byte m address value).toOption

/-- Source InstructionSet::ret (instruction_set.rs lines 890-897): reads
mem at SP as value_higher, SP+1 as value_lower, then
PC = concatenate_bytes(value_lower, value_higher). -/
def ret (m : Mmu) (r : Registers) : Option Registers :=
  match read_byte m r.sp with
  | .error _ => none
  | .ok value_higher =>
    match read_byte m r.increment_sp.sp with
    | .error _ => none
    | .ok value_lower =>
      some (r.increment_sp.increment_sp.set_pc
        (concatenate_bytes value_lower value_higher))

/-- Source Registers::set_16bit_register restricted as pop uses it; the
8-bit variants panic in the source (none here). -/
def set_16bit_register (r : Registers) (register : Register) (value : Nat) :
    Option Registers :=
  match register with
  | .AF => some (r.set_af value)
  | .BC => some (r.set_bc value)
  | .DE => some (r.set_de value)
  | .HL => some (r.set_hl value)
  | .SP => some (r.set_sp value)
  | .PC => some (r.set_pc value)
  | _ => none

/-- Source InstructionSet::pop (instruction_set.rs lines 879-886): reads
value_higher at SP, value_lower at SP+1, then stores
concatenate_bytes(value_lower, value_higher) through set_16bit_register
(for AF that is set_af, which masks F with 0xF0). -/
def pop (m : Mmu) (r : Registers) (register : Register) : Option Registers :=
  match read_byte m r.sp with
  | .error _ => none
  | .ok value_higher =>
    match read_byte m r.increment_sp.sp with
    | .error _ => none
    | .ok value_lower =>
      set_16bit_register r.increment_sp.increment_sp register
        (concatenate_bytes value_lower value_higher)

/-- Source InstructionSet::res (instruction_set.rs lines 912-914):
value &= !(1 << bit_position) on u8. -/
def res (value bit_position : Nat) : Nat :=
  value &&& (0xFF ^^^ (1 <<< bit_position))

/-- Source InstructionSet::set (instruction_set.rs lines 918-920):
value ^= 1 << bit_position — an XOR, i.e. a toggle. -/
def set (value bit_position : Nat) : Nat :=
  value ^^^ (1 <<< bit_position)

/-- The SET b, (HL) closure (instruction_set.rs lines 601-605):
Self::set(mmu.get_byte_ref(registers.hl()).unwrap(), bit) — obtain the
mutable cell for the address, toggle the bit, store in place. -/
def set_hl_mem (m : Mmu) (address bit : Nat) : Option Mmu :=
  match get_byte_ref address with
  | .error _ => none
  | .ok loc => some (loc_write m loc (set (loc_read m loc) bit))

/-- Source InstructionSet::add_8bit_signed (instruction_set.rs lines
731-733): the body is the todo macro, which aborts — embedded as none. -/
def add_8bit_signed (_registers : Registers) (_register : Register)
    (_value : Int) : Option Registers :=
  none

end InstructionSet

/-- Arity of the Operation enum variants (instruction_set.rs lines 13-20);
run_next_opcode reads this many operand bytes at PC. -/
inductive OperationKind
  | none | nullary | unary | binary
deriving DecidableEq

/-- Operand bytes read by Cpu::run_next_opcode (cpu/mod.rs lines 66-91)
for each Operation variant. -/
def operand_count : OperationKind → Nat
  | .none => 0
  | .nullary => 0
  | .unary => 1
  | .binary => 2

/-- The name / opcode / length / cycles metadata of the source struct
Instruction (instruction_set.rs lines 22-29), with the operation closure
abstracted to its arity. -/
structure InstructionMeta where
  name : String
  opcode : Nat
  length : Nat
  cycles : Nat
  kind : OperationKind

/-- The 0xE8 table entry (instruction_set.rs lines 452-453): ADD SP, s8
declared with length 1 but an Operation::Unary closure (which calls
add_8bit_signed on Register::HL with the operand reinterpreted as i8). -/
def instruction_0xE8 : InstructionMeta :=
  { name := "ADD SP, s8", opcode := 0xE8, length := 1, cycles := 2, kind := .unary }

/-- Bytes consumed at PC by one Cpu::run_next_opcode pass (cpu/mod.rs
lines 51-95) for a non-CB opcode: one read for the opcode byte plus one
read per operand of the Operation variant. -/
def run_next_opcode_pc_advance (kind : OperationKind) : Nat :=
  1 + operand_count kind

/-- The i8 reinterpretation (value as i8) used by the 0xE8 closure. -/
def i8_of_u8 (v : Nat) : Int :=
  if v < 128 then (v : Int) else (v : Int) - 256

/-- The 0xE8 closure body (instruction_set.rs line 453):
Self::add_8bit_signed(registers, Register::HL, value as i8). -/
def add_sp_s8_operation (r : Registers) (value : Nat) : Option Registers :=
  InstructionSet.add_8bit_signed r Register.HL (i8_of_u8 value)

/-- Recogniser for the write-rejection error of Mmu::write_byte. -/
def is_write_to_read_only {α : Type} : Except MmuError α → Bool
  | .error .writeIntoIllegalMemoryRegion => true
  | _ => false

/-! ## Shared helper lemmas and states -/

/-- A fresh MMU whose random WRAM bytes all came out zero. -/
def mmu0 : Mmu := mmu_new (fun _ => 0)

/-- Masking with a value whose masked bits are clear leaves an OR
invisible under the mask. -/
theorem lor_land_of_land_eq_zero (f a mask : Nat) (hza : a &&& mask = 0) :
    (f ||| a) &&& mask = f &&& mask := by
  apply Nat.eq_of_testBit_eq
  intro i
  have hb : (a.testBit i && mask.testBit i) = false := by
    have h2 := congrArg (fun n => Nat.testBit n i) hza
    simpa [Nat.testBit_land] using h2
  simp only [Nat.testBit_land, Nat.testBit_lor]
  cases hf : f.testBit i <;> cases ha : a.testBit i <;>
    cases hm : mask.testBit i <;> simp_all

/-- Masking with a value whose masked bits are clear leaves an XOR
invisible under the mask. -/
theorem xor_land_of_land_eq_zero (f a mask : Nat) (hza : a &&& mask = 0) :
    (f ^^^ a) &&& mask = f &&& mask := by
  apply Nat.eq_of_testBit_eq
  intro i
  have hb : (a.testBit i && mask.testBit i) = false := by
    have h2 := congrArg (fun n => Nat.testBit n i) hza
    simpa [Nat.testBit_land] using h2
  simp only [Nat.testBit_land, Nat.testBit_xor]
  cases hf : f.testBit i <;> cases ha : a.testBit i <;>
    cases hm : mask.testBit i <;> simp_all

/-- A nonzero XOR changes the value. -/
theorem xor_ne_of_ne_zero (x k : Nat) (hk : k ≠ 0) : x ^^^ k ≠ x := by
  intro h
  apply hk
  have h2 := congrArg (fun y => x ^^^ y) h
  simpa [← Nat.xor_assoc, Nat.xor_self] using h2

/-- Any value masked with 0xF0 has a zero low nibble. -/
theorem land_0xF0_land_0xF (v : Nat) : (v &&& 0xF0) &&& 0xF = 0 := by
  rw [Nat.land_assoc, show (0xF0 : Nat) &&& 0xF = 0 by decide]
  simp

/-- Every Flag discriminant lives in the high nibble. -/
theorem flag_val_land_0xF (flag : Flag) : flag.val &&& 0xF = 0 := by
  cases flag <;> decide

/-- The u8 complement of every Flag discriminant keeps the whole low
nibble. -/
theorem flag_compl_land_0xF (flag : Flag) : (0xFF ^^^ flag.val) &&& 0xF = 0xF := by
  cases flag <;> decide

/-- Addresses up to 0x3FFF decode to ROM bank zero. -/
theorem from_address_rom0 (a : Nat) (h : a ≤ 0x3FFF) :
    from_address a = .ok .RomBankZero := by
  unfold from_address
  rw [if_pos h]

/-- Addresses 0x4000 to 0x7FFF decode to the switchable ROM bank. -/
theorem from_address_rom1 (a : Nat) (h1 : 0x4000 ≤ a) (h2 : a ≤ 0x7FFF) :
    from_address a = .ok .RomBankSwap := by
  unfold from_address
  rw [if_neg (by omega), if_pos h2]

/-- Addresses 0xE000 to 0xFDFF decode to the Echo region. -/
theorem from_address_echo (a : Nat) (h1 : 0xE000 ≤ a) (h2 : a ≤ 0xFDFF) :
    from_address a = .ok .EchoRam := by
  unfold from_address
  rw [if_neg (by omega), if_neg (by omega), if_neg (by omega), if_neg (by omega),
    if_neg (by omega), if_pos h2]

/-- Every address up to 0xFFFF decodes to some region. -/
theorem from_address_total (a : Nat) (ha : a ≤ 0xFFFF) :
    ∃ rg, from_address a = .ok rg := by
  unfold from_address
  by_cases h1 : a ≤ 0x3FFF
  · exact ⟨_, if_pos h1⟩
  rw [if_neg h1]
  by_cases h2 : a ≤ 0x7FFF
  · exact ⟨_, if_pos h2⟩
  rw [if_neg h2]
  by_cases h3 : a ≤ 0x9FFF
  · exact ⟨_, if_pos h3⟩
  rw [if_neg h3]
  by_cases h4 : a ≤ 0xBFFF
  · exact ⟨_, if_pos h4⟩
  rw [if_neg h4]
  by_cases h5 : a ≤ 0xDFFF
  · exact ⟨_, if_pos h5⟩
  rw [if_neg h5]
  by_cases h6 : a ≤ 0xFDFF
  · exact ⟨_, if_pos h6⟩
  rw [if_neg h6]
  by_cases h7 : a ≤ 0xFE9F
  · exact ⟨_, if_pos h7⟩
  rw [if_neg h7]
  by_cases h8 : a ≤ 0xFEFF
  · exact ⟨_, if_pos h8⟩
  rw [if_neg h8]
  by_cases h9 : a ≤ 0xFF7F
  · exact ⟨_, if_pos h9⟩
  rw [if_neg h9]
  by_cases h10 : a ≤ 0xFFFE
  · exact ⟨_, if_pos h10⟩
  rw [if_neg h10]
  by_cases h11 : a = 0xFFFF
  · exact ⟨_, if_pos h11⟩
  exact absurd ha (by omega)

/-- Base address of each region, the enum discriminant used for relative
addressing in mmu/mod.rs. -/
def region_base : MemoryRegion → Nat
  | .RomBankZero => 0x0000
  | .RomBankSwap => 0x4000
  | .VideoRam => 0x8000
  | .ExternalRam => 0xA000
  | .WorkRam => 0xC000
  | .EchoRam => 0xE000
  | .SpriteAttributionTable => 0xFE00
  | .Unusable => 0xFEA0
  | .Io => 0xFF00
  | .HighRam => 0xFF80
  | .InterruptEnableRegister => 0xFFFF

/-- Reading back through the same reference sees the stored byte. -/
theorem loc_read_loc_write (m : Mmu) (loc : MemoryRegion × Nat) (V : Nat) :
    loc_read (loc_write m loc V) loc = V := by
  obtain ⟨rg, i⟩ := loc
  cases rg <;> simp [loc_read, loc_write, upd]

/-- For a decoded non-IE address, read_byte away from the LY stub reads
the same cell that get_byte_ref designates. -/
theorem read_byte_eq_loc_read (m : Mmu) (a : Nat) (rg : MemoryRegion)
    (hfa : from_address a = .ok rg) (h44 : a ≠ 0xFF44) :
    read_byte m a = .ok (loc_read m (rg, a - region_base rg)) := by
  unfold read_byte
  rw [if_neg h44, hfa]
  cases rg <;> rfl

/-- For a decoded non-IE address, get_byte_ref designates the region
cell at the relative offset. -/
theorem get_byte_ref_eq (a : Nat) (rg : MemoryRegion)
    (hfa : from_address a = .ok rg) (hne : rg ≠ .InterruptEnableRegister) :
    get_byte_ref a = .ok (rg, a - region_base rg) := by
  unfold get_byte_ref
  rw [hfa]
  cases rg <;> first | exact absurd rfl hne | rfl

/-- Writes into the ROM banks and the Echo region are rejected. -/
theorem write_byte_rejected (m : Mmu) (a v : Nat) (rg : MemoryRegion)
    (hfa : from_address a = .ok rg)
    (hrg : rg = .RomBankZero ∨ rg = .RomBankSwap ∨ rg = .EchoRam) :
    write_byte m a v = .error .writeIntoIllegalMemoryRegion := by
  unfold write_byte
  rw [hfa]
  rcases hrg with h | h | h <;> subst h <;> rfl

/-! ## Claim theorems -/

/-- Pre-dispatch state for the interrupt round trip: IE = IF = 1 (VBlank
pending), IME set, PC = 0x1234, SP = 0xFFFE. -/
def c1_regs : Registers := { pc := 0x1234, sp := 0xFFFE, ime := true }

/-- MMU for the interrupt round trip. -/
def c1_mmu : Mmu := (mmu0.set_ie 1).set_iflag 1

/-- C1: interrupt dispatch does push the pre-dispatch PC high byte first
(0x12 lands at SP-1 = 0xFFFD) then low byte (0x34 at SP-2 = 0xFFFC), with
SP = 0xFFFC and PC = vector 0x40 afterwards — but the subsequent RET does
NOT restore the pushed PC: it yields the byte-swapped 0x3412, because
InstructionSet::ret reads the byte at SP as the HIGH byte, pairing with
the push order of call, which is the opposite of the dispatch push order. -/
theorem c1_interrupt_push_then_ret_swaps_pc :
    (handle_interrupts c1_regs c1_mmu).map (fun res =>
        ((read_byte res.2.2 0xFFFD).toOption, (read_byte res.2.2 0xFFFC).toOption,
          res.2.1.sp, res.2.1.pc, res.2.1.ime))
      = some (some 0x12, some 0x34, 0xFFFC, 0x40, false) ∧
    ((handle_interrupts c1_regs c1_mmu).bind fun res =>
        (InstructionSet.ret res.2.2 res.2.1).map Registers.pc) = some 0x3412 ∧
    (0x3412 : Nat) ≠ 0x1234 :=
  ⟨rfl, rfl, by decide⟩

/-- Timer state of spec scenario 5: TAC = 0x05 (enable, clock select 1),
TIMA = 0xFF, TMA = 0x37. -/
def c2_mmu : Mmu := ((mmu0.set_tac 0x05).set_tima 0xFF).set_tma 0x37

/-- Timer state with clock select 0 and TIMA = 0. -/
def c2_mmu_select0 : Mmu := (mmu0.set_tac 0x04).set_tima 0

/-- Timer state with clock select 0 on the verge of overflow. -/
def c2_mmu_overflow : Mmu := ((mmu0.set_tac 0x04).set_tima 0xFF).set_tma 0x37

/-- C2: the timer does not behave as claimed.  With clock select 1
(period 16 per the claim) advancing 16 T-cycles changes nothing: TIMA
stays 0xFF and IF stays 0, because the select-1 arm of
update_clock_cycles is empty.  With clock select 0 the tick period is
256 T-cycles, not the claimed 1024.  And on the overflow reload the code
ORs IF with 2 (the Timer enum discriminant, i.e. bit 1) instead of
setting IF bit 2. -/
theorem c2_timer_clock_select_unimplemented :
    ((update_clock_cycles ⟨0⟩ c2_mmu 16).2.tima = 0xFF ∧
      (update_clock_cycles ⟨0⟩ c2_mmu 16).2.iflag = 0 ∧
      (update_clock_cycles ⟨0⟩ c2_mmu 16).1.cycles = 16) ∧
    (update_clock_cycles ⟨0⟩ c2_mmu_select0 256).2.tima = 1 ∧
    ((update_clock_cycles ⟨0⟩ c2_mmu_overflow 256).2.tima = 0x37 ∧
      (update_clock_cycles ⟨0⟩ c2_mmu_overflow 256).2.iflag = 2) :=
  ⟨⟨rfl, rfl, rfl⟩, rfl, rfl, rfl⟩

/-- Register state of the spec ADC example: A = 0x3A, B = 0xC6, carry
flag set. -/
def c3_regs : Registers := { a := 0x3A, b := 0xC6, f := 0x10 }

/-- C3: the concrete example of the claim does hold on the code
(ADC A,B from A = 0x3A, carry = 1, B = 0xC6 gives A = 0x01, Z = 0, N = 0,
H = 1, C = 1), but the general statement does not: adc computes the
half-carry and the carry WITHOUT the incoming carry.  From A = 0x0F,
carry = 1, operand 0x00 the result is A = 0x10 with H = 0 (the claimed
semantics give H = 1); from A = 0xFF, carry = 1, operand 0x00 the result
is A = 0x00 with C = 0 (the claimed semantics give C = 1). -/
theorem c3_adc_flags_ignore_carry_in :
    ((InstructionSet.adc c3_regs 0x3A 0xC6).a = 0x01 ∧
      (InstructionSet.adc c3_regs 0x3A 0xC6).zero_flag = false ∧
      (InstructionSet.adc c3_regs 0x3A 0xC6).subtraction_flag = false ∧
      (InstructionSet.adc c3_regs 0x3A 0xC6).half_carry_flag = true ∧
      (InstructionSet.adc c3_regs 0x3A 0xC6).carry_flag = true) ∧
    ((InstructionSet.adc { a := 0x0F, f := 0x10 } 0x0F 0x00).a = 0x10 ∧
      (InstructionSet.adc { a := 0x0F, f := 0x10 } 0x0F 0x00).half_carry_flag = false) ∧
    ((InstructionSet.adc { a := 0xFF, f := 0x10 } 0xFF 0x00).a = 0x00 ∧
      (InstructionSet.adc { a := 0xFF, f := 0x10 } 0xFF 0x00).carry_flag = false) :=
  ⟨⟨rfl, rfl, rfl, rfl, rfl⟩, ⟨rfl, rfl⟩, rfl, rfl⟩

/-- C4: echo reads are served from the separate, zero-initialised
echo_ram bank, not from the mirrored WRAM byte.  After a single legal
WRAM write of 0x42 to 0xC000 (no write to the echo alias was ever made),
reading 0xE000 yields 0x00 while reading 0xE000 - 0x2000 = 0xC000 yields
0x42.  The write-rejection half of the claim does hold. -/
theorem c4_echo_read_is_not_a_mirror :
    (write_byte mmu0 0xC000 0x42).toOption.map (fun m1 =>
        ((read_byte m1 0xE000).toOption, (read_byte m1 0xC000).toOption))
      = some (some 0x00, some 0x42) ∧
    is_write_to_read_only (write_byte mmu0 0xE000 0x42) = true :=
  ⟨rfl, rfl⟩

/-- C5: the MMU does surface the structured write-rejection error for a
store into ROM (0x2000) or Echo (0xE000), but the CPU does not coerce it
to a silent no-op: InstructionSet::ld_8bit_mem unwraps the error, which
aborts the process (none), instead of continuing normally. -/
theorem c5_rom_write_unwrap_aborts :
    is_write_to_read_only (write_byte mmu0 0x2000 0xAB) = true ∧
    InstructionSet.ld_8bit_mem mmu0 0x2000 0xAB = none ∧
    is_write_to_read_only (write_byte mmu0 0xE000 0xAB) = true ∧
    InstructionSet.ld_8bit_mem mmu0 0xE000 0xAB = none :=
  ⟨rfl, rfl, rfl, rfl⟩

/-- C6: the 0xE8 (ADD SP, s8) descriptor declares length 1 while its
Operation::Unary closure makes run_next_opcode consume the opcode byte
plus one operand byte, advancing PC by 2; moreover executing the closure
aborts, since add_8bit_signed is the todo macro. -/
theorem c6_opcode_0xE8_descriptor_mismatch :
    instruction_0xE8.length = 1 ∧
    run_next_opcode_pc_advance instruction_0xE8.kind = 2 ∧
    run_next_opcode_pc_advance instruction_0xE8.kind ≠ instruction_0xE8.length ∧
    add_sp_s8_operation { } 0x05 = none :=
  ⟨rfl, rfl, by decide, rfl⟩

/-- C7: every write to F keeps the low nibble clear.  set_f, set_af and
clear_all_flags force F & 0x0F = 0 outright; set_flag, clear_flag and
flip_flag leave F & 0x0F exactly unchanged (so zero stays zero); and pop
into AF — the POP AF path, which goes through set_af — always lands with
F & 0x0F = 0. -/
theorem c7_f_low_nibble_always_zero :
    (∀ (r : Registers) (v : Nat), (r.set_f v).f &&& 0xF = 0) ∧
    (∀ (r : Registers) (v : Nat), (r.set_af v).f &&& 0xF = 0) ∧
    (∀ r : Registers, r.clear_all_flags.f = 0) ∧
    (∀ (r : Registers) (flag : Flag) (b : Bool),
      (r.set_flag flag b).f &&& 0xF = r.f &&& 0xF) ∧
    (∀ (r : Registers) (flag : Flag), (r.clear_flag flag).f &&& 0xF = r.f &&& 0xF) ∧
    (∀ (r : Registers) (flag : Flag), (r.flip_flag flag).f &&& 0xF = r.f &&& 0xF) ∧
    (∀ (m : Mmu) (r r' : Registers),
      InstructionSet.pop m r Register.AF = some r' → r'.f &&& 0xF = 0) := by
  refine ⟨fun r v => land_0xF0_land_0xF v, fun r v => land_0xF0_land_0xF v,
    fun r => rfl, ?_, ?_, ?_, ?_⟩
  · intro r flag b
    cases b with
    | false =>
      show (r.f &&& (0xFF ^^^ flag.val)) &&& 0xF = r.f &&& 0xF
      rw [Nat.land_assoc, flag_compl_land_0xF]
    | true =>
      show (r.f ||| flag.val) &&& 0xF = r.f &&& 0xF
      exact lor_land_of_land_eq_zero r.f flag.val 0xF (flag_val_land_0xF flag)
  · intro r flag
    show (r.f &&& (0xFF ^^^ flag.val)) &&& 0xF = r.f &&& 0xF
    rw [Nat.land_assoc, flag_compl_land_0xF]
  · intro r flag
    exact xor_land_of_land_eq_zero r.f flag.val 0xF (flag_val_land_0xF flag)
  · intro m r r' h
    unfold InstructionSet.pop at h
    split at h
    · exact Option.noConfusion h
    · split at h
      · exact Option.noConfusion h
      · simp only [InstructionSet.set_16bit_register, Option.some.injEq] at h
        subst h
        exact land_0xF0_land_0xF _

/-- Witness for C7: POP AF executed at SP = 0xC000 over a zeroed MMU
returns concretely, and the theorem applies to it. -/
theorem c7_f_low_nibble_always_zero_witness :
    InstructionSet.pop mmu0 { sp := 0xC000 } Register.AF = some { sp := 0xC002 } ∧
    ({ sp := 0xC002 } : Registers).f &&& 0xF = 0 :=
  ⟨rfl, c7_f_low_nibble_always_zero.2.2.2.2.2.2 mmu0 { sp := 0xC000 } _ rfl⟩

/-- C9: increment_pc, increment_sp and decrement_sp wrap modulo 2^16 for
every starting value — results are reduced mod 0x10000 and stay below
0x10000 — and at the edges 0xFFFF + 1 wraps to 0 for PC and SP, and
0 - 1 wraps to 0xFFFF for SP.  (Embedded with the release-profile
wrapping semantics of the unchecked u16 arithmetic.) -/
theorem c9_sp_pc_wrap_mod_2_16 (r : Registers) :
    r.increment_pc.pc = (r.pc + 1) % 0x10000 ∧
    r.increment_sp.sp = (r.sp + 1) % 0x10000 ∧
    r.decrement_sp.sp = (r.sp + 0x10000 - 1) % 0x10000 ∧
    r.increment_pc.pc < 0x10000 ∧
    r.increment_sp.sp < 0x10000 ∧
    r.decrement_sp.sp < 0x10000 ∧
    (Registers.increment_pc { r with pc := 0xFFFF }).pc = 0 ∧
    (Registers.increment_sp { r with sp := 0xFFFF }).sp = 0 ∧
    (Registers.decrement_sp { r with sp := 0 }).sp = 0xFFFF := by
  refine ⟨rfl, rfl, ?_, ?_, ?_, ?_, ?_, ?_, ?_⟩
  · show (r.sp + 0xFFFF) % 0x10000 = (r.sp + 0x10000 - 1) % 0x10000
    omega
  · show (r.pc + 1) % 0x10000 < 0x10000
    omega
  · show (r.sp + 1) % 0x10000 < 0x10000
    omega
  · show (r.sp + 0xFFFF) % 0x10000 < 0x10000
    omega
  · show (0xFFFF + 1) % 0x10000 = 0
    omega
  · show (0xFFFF + 1) % 0x10000 = 0
    omega
  · show (0 + 0xFFFF) % 0x10000 = 0xFFFF
    omega

/-- C8: InstructionSet::set toggles the bit instead of setting it: on an
operand whose bit is already 1 the bit comes out 0 (SET 0 on 0x01 gives
0x00 and SET 7 on 0xFF gives 0x7F), though on a cleared bit it happens to
produce the claimed result (SET 0 on 0x00 gives 0x01). -/
theorem c8_set_toggles_instead_of_setting :
    InstructionSet.set 0x01 0 = 0x00 ∧
    InstructionSet.set 0xFF 7 = 0x7F ∧
    InstructionSet.set 0x00 0 = 0x01 :=
  ⟨rfl, rfl, rfl⟩

/-- C10: get_byte_ref hands out a usable mutable cell for every address
in 0..=0xFFFF; for the ROM banks and the Echo region — exactly where
write_byte answers the write-rejection error — the CB-prefixed
read-modify-write path (the SET b,(HL) closure) writes through that cell
and the change is visible to read_byte, i.e. it bypasses the write
policy and mutates ROM contents. -/
theorem c10_get_byte_ref_bypasses_write_policy :
    (∀ a : Nat, a ≤ 0xFFFF → (get_byte_ref a).isOk = true) ∧
    (∀ (m : Mmu) (a b v : Nat),
      a < 0x8000 ∨ (0xE000 ≤ a ∧ a ≤ 0xFDFF) → b < 8 →
      is_write_to_read_only (write_byte m a v) = true ∧
      (InstructionSet.set_hl_mem m a b).map (fun m2 => (read_byte m2 a).toOption)
        = some (some ((read_byte m a).toOption.getD 0 ^^^ (1 <<< b))) ∧
      (read_byte m a).toOption.getD 0 ^^^ (1 <<< b)
        ≠ (read_byte m a).toOption.getD 0) := by
  constructor
  · intro a ha
    obtain ⟨rg, hfa⟩ := from_address_total a ha
    unfold get_byte_ref
    rw [hfa]
    rfl
  · intro m a b v hreg hb
    have hk : (1 <<< b) ≠ 0 := by
      rw [Nat.one_shiftLeft]
      exact Nat.pos_iff_ne_zero.mp (Nat.two_pow_pos b)
    have h44 : a ≠ 0xFF44 := by rcases hreg with h | h <;> omega
    obtain ⟨rg, hfa, hrej, hne⟩ :
        ∃ rg, from_address a = .ok rg ∧
          (rg = .RomBankZero ∨ rg = .RomBankSwap ∨ rg = .EchoRam) ∧
          rg ≠ .InterruptEnableRegister := by
      rcases hreg with hrom | ⟨he1, he2⟩
      · by_cases h0 : a ≤ 0x3FFF
        · exact ⟨_, from_address_rom0 a h0, Or.inl rfl, by simp⟩
        · exact ⟨_, from_address_rom1 a (by omega) (by omega), Or.inr (Or.inl rfl), by simp⟩
      · exact ⟨_, from_address_echo a he1 he2, Or.inr (Or.inr rfl), by simp⟩
    have hr := read_byte_eq_loc_read m a rg hfa h44
    have hg := get_byte_ref_eq a rg hfa hne
    have hs : InstructionSet.set_hl_mem m a b
        = some (loc_write m (rg, a - region_base rg)
            (InstructionSet.set (loc_read m (rg, a - region_base rg)) b)) := by
      unfold InstructionSet.set_hl_mem
      rw [hg]
    refine ⟨by rw [write_byte_rejected m a v rg hfa hrej]; rfl, ?_, ?_⟩
    · rw [hs, Option.map_some',
        read_byte_eq_loc_read _ a rg hfa h44, loc_read_loc_write, hr]
      simp [Except.toOption, InstructionSet.set]
    · rw [hr]
      exact xor_ne_of_ne_zero _ _ hk

/-- Witness for C10: the mutable cell exists at 0x4500, and at the ROM
address 0x1000 (bit 0, attempted write value 7) the write is rejected
while the read-modify-write path mutates the ROM byte from 0 to 1. -/
theorem c10_get_byte_ref_bypasses_write_policy_witness :
    (get_byte_ref 0x4500).isOk = true ∧
    (is_write_to_read_only (write_byte mmu0 0x1000 7) = true ∧
      (InstructionSet.set_hl_mem mmu0 0x1000 0).map (fun m2 =>
          (read_byte m2 0x1000).toOption)
        = some (some ((read_byte mmu0 0x1000).toOption.getD 0 ^^^ (1 <<< 0))) ∧
      (read_byte mmu0 0x1000).toOption.getD 0 ^^^ (1 <<< 0)
        ≠ (read_byte mmu0 0x1000).toOption.getD 0) :=
  ⟨c10_get_byte_ref_bypasses_write_policy.1 0x4500 (by decide),
    c10_get_byte_ref_bypasses_write_policy.2 mmu0 0x1000 0 7 (Or.inl (by decide))
      (by decide)⟩

end Rainier
